import Mathlib

/-!
Verification development for the event-driven backtest engine
(`source/backtest_engine.py` of EliteQuant_Python).

The engine file is embedded shallowly: each handler of the `Backtest` class
becomes a Lean function from an engine state and an event to the successor
state together with the trace of collaborator calls it performs, in source
order.  Collaborators that live outside the embedded file (the data board,
the portfolio ledger's mark table, the performance accumulator's record,
the event engine's drain loop) are modelled from the specification, with a
doc comment saying so.
-/

namespace EliteQuant

/-- Timestamps, modelling `pandas.Timestamp` values as calendar dates
(year, month, day); the engine only ever stores, copies and compares them. -/
structure Timestamp where
  y : Nat
  m : Nat
  d : Nat
deriving DecidableEq, Repr

/-- The sentinel `Timestamp('1900-01-01')` assigned at line 28 of the source. -/
def ts1900 : Timestamp := ⟨1900, 1, 1⟩

/-- Prices, modelled as rationals. -/
abbrev Price := Rat

/-- A Tick market event: instrument, timestamp and traded price
(fields `full_symbol`, `timestamp`, `price` used by the handler). -/
structure TickEvent where
  full_symbol : String
  timestamp : Timestamp
  price : Price
deriving DecidableEq, Repr

/-- A Bar market event: instrument, bar end time and adjusted close
(fields `full_symbol`, `bar_end_time()`, `adj_close_price` used by the handler). -/
structure BarEvent where
  full_symbol : String
  bar_end_time : Timestamp
  adj_close_price : Price
deriving DecidableEq, Repr

/-- An Order event emitted by the strategy (only identity matters to the engine). -/
structure OrderEvent where
  full_symbol : String
  timestamp : Timestamp
  order_size : Int
deriving DecidableEq, Repr

/-- A Fill event emitted by the brokerage (only identity matters to the engine). -/
structure FillEvent where
  full_symbol : String
  timestamp : Timestamp
  fill_size : Int
  fill_price : Price
deriving DecidableEq, Repr

/-- The collaborator calls the engine makes, one constructor per method the
`Backtest` handlers and `run` invoke on their collaborators. -/
inductive Call where
  | updatePerformance (t : Timestamp)
  | markToMarket (t : Timestamp) (sym : String) (price : Price)
  | dataBoardOnTick (e : TickEvent)
  | dataBoardOnBar (e : BarEvent)
  | strategyOnTick (e : TickEvent)
  | strategyOnBar (e : BarEvent)
  | riskGateCheck (o : OrderEvent)
  | placeOrder (o : OrderEvent)
  | portfolioOnFill (f : FillEvent)
  | performanceOnFill (f : FillEvent)
  | updateFinalPerformance (t : Timestamp)
  | saveResults
  | createTearsheet
deriving DecidableEq, Repr

/-- Insert-or-update into an association list keyed by instrument symbol. -/
def upsert (sym : String) (p : Price) : List (String × Price) → List (String × Price)
  | [] => [(sym, p)]
  | (k, v) :: rest => if k = sym then (sym, p) :: rest else (k, v) :: upsert sym p rest

/-- The engine-visible state threaded through the handlers: the engine's
`_current_time` field together with the collaborator state the claims are
about (the portfolio ledger's mark table, the performance accumulator's
record, the data board's latest-price table). -/
structure EngineState where
  currentTime : Timestamp
  marks : List (String × Price)
  perfRows : List (Timestamp × List (String × Price))
  board : List (String × Price)
deriving DecidableEq, Repr

/-- One step of the trace: the call made, and the engine state visible to
the callee at the moment of the call. -/
structure Step where
  call : Call
  seen : EngineState
deriving DecidableEq, Repr

/-- Modelled from the spec: `PerformanceManager.update_performance(timestamp,
portfolio, data_board)` (the performance manager's code is not under src/)
appends a snapshot row pairing the timestamp with the portfolio ledger's mark
state as it stands at call time; the record is append-only. -/
def update_performance (s : EngineState) (t : Timestamp) : EngineState :=
  { s with perfRows := s.perfRows ++ [(t, s.marks)] }

/-- Modelled from the spec: `PortfolioManager.mark_to_market(timestamp, symbol,
price)` (the portfolio manager's code is not under src/) updates the valuation
basis for the instrument and touches neither cash nor positions nor the
performance record. -/
def mark_to_market (s : EngineState) (t : Timestamp) (sym : String) (price : Price) :
    EngineState :=
  { s with marks := upsert sym price s.marks }

/-- Modelled from the spec: `DataBoard.on_tick(tick)` (the data board's code is
not under src/) records the tick's price as the instrument's latest known price. -/
def data_board_on_tick (s : EngineState) (e : TickEvent) : EngineState :=
  { s with board := upsert e.full_symbol e.price s.board }

/-- Modelled from the spec: `DataBoard.on_bar(bar)` (the data board's code is
not under src/) records the bar's adjusted close as the instrument's latest
known price. -/
def data_board_on_bar (s : EngineState) (e : BarEvent) : EngineState :=
  { s with board := upsert e.full_symbol e.adj_close_price s.board }

/-- Modelled from the spec: `PerformanceManager.update_final_performance(...)`
(code not under src/) forces one last snapshot row, using the final mark state. -/
def update_final_performance (s : EngineState) (t : Timestamp) : EngineState :=
  { s with perfRows := s.perfRows ++ [(t, s.marks)] }

/-- Embedding of `Backtest._tick_event_handler` (source lines 103-110):
sets `_current_time` to the tick's timestamp, then calls, in order,
`update_performance`, `mark_to_market` (at the tick's price), the data
board's `on_tick`, and the strategy's `on_tick`. -/
def tick_event_handler (s : EngineState) (e : TickEvent) : EngineState × List Step :=
  let s0 : EngineState := { s with currentTime := e.timestamp }
  let s1 := update_performance s0 s0.currentTime
  let s2 := mark_to_market s1 s1.currentTime e.full_symbol e.price
  let s3 := data_board_on_tick s2 e
  (s3,
    [ ⟨.updatePerformance s0.currentTime, s0⟩,
      ⟨.markToMarket s1.currentTime e.full_symbol e.price, s1⟩,
      ⟨.dataBoardOnTick e, s2⟩,
      ⟨.strategyOnTick e, s3⟩ ])

/-- Embedding of `Backtest._bar_event_handler` (source lines 112-119):
sets `_current_time` to the bar's end time, then calls, in order,
`update_performance`, `mark_to_market` (at the bar's adjusted close), the
data board's `on_bar`, and the strategy's `on_bar`. -/
def bar_event_handler (s : EngineState) (e : BarEvent) : EngineState × List Step :=
  let s0 : EngineState := { s with currentTime := e.bar_end_time }
  let s1 := update_performance s0 s0.currentTime
  let s2 := mark_to_market s1 s1.currentTime e.full_symbol e.adj_close_price
  let s3 := data_board_on_bar s2 e
  (s3,
    [ ⟨.updatePerformance s0.currentTime, s0⟩,
      ⟨.markToMarket s1.currentTime e.full_symbol e.adj_close_price, s1⟩,
      ⟨.dataBoardOnBar e, s2⟩,
      ⟨.strategyOnBar e, s3⟩ ])

/-- Embedding of `Backtest._order_event_handler` (source lines 121-122): the
order is forwarded directly to `BacktestBrokerage.place_order`; no other call
is made (in particular the risk manager constructed at line 82 is not
consulted, and is not passed to the brokerage at lines 71-73). -/
def order_event_handler (s : EngineState) (o : OrderEvent) : EngineState × List Step :=
  (s, [⟨.placeOrder o, s⟩])

/-- Embedding of `Backtest._fill_event_handler` (source lines 124-126): the
portfolio ledger's `on_fill` is called first, then the performance
accumulator's `on_fill`. -/
def fill_event_handler (s : EngineState) (f : FillEvent) : EngineState × List Step :=
  (s, [⟨.portfolioOnFill f, s⟩, ⟨.performanceOnFill f, s⟩])

/-- Events flowing through the dispatcher. -/
inductive Event where
  | tick (e : TickEvent)
  | bar (e : BarEvent)
  | order (o : OrderEvent)
  | fill (f : FillEvent)
deriving DecidableEq, Repr

/-- Whether an event is a market-data event (Tick or Bar). -/
def Event.isMarket : Event → Bool
  | .tick _ => true
  | .bar _ => true
  | _ => false

/-- The timestamp an event carries (a bar's end time for a Bar). -/
def Event.time : Event → Timestamp
  | .tick e => e.timestamp
  | .bar e => e.bar_end_time
  | .order o => o.timestamp
  | .fill f => f.timestamp

/-- Dispatch of one event to the handler registered for its kind
(source lines 97-100). -/
def dispatch (s : EngineState) : Event → EngineState × List Step
  | .tick e => tick_event_handler s e
  | .bar e => bar_event_handler s e
  | .order o => order_event_handler s o
  | .fill f => fill_event_handler s f

/-- Modelled from the spec: `BacktestEventEngine.run` (code not under src/)
drains the time-ordered event sequence until exhausted, dispatching each
event synchronously to its registered handler; feed exhaustion is the sole
termination condition. -/
def events_engine_run (s : EngineState) : List Event → EngineState × List Step
  | [] => (s, [])
  | ev :: rest =>
    let r1 := dispatch s ev
    let r2 := events_engine_run r1.1 rest
    (r2.1, r1.2 ++ r2.2)

/-- Embedding of `Backtest.run` (source lines 131-138): drain the event
engine, then one `update_final_performance` at the engine's `_current_time`,
then `save_results`, then `create_tearsheet`. -/
def run (s : EngineState) (events : List Event) : EngineState × List Step :=
  let r := events_engine_run s events
  let s2 := update_final_performance r.1 r.1.currentTime
  (s2,
    r.2 ++
      [ ⟨.updateFinalPerformance r.1.currentTime, r.1⟩,
        ⟨.saveResults, s2⟩,
        ⟨.createTearsheet, s2⟩ ])

/-- The kind of historical data feed the constructor selects
(source lines 50-62). -/
inductive DataFeedKind where
  | localFeed
  | tushare
  | quandl
deriving DecidableEq, Repr

/-- Python's `str.upper()` on the ASCII strings the configuration carries,
applied characterwise. -/
def str_upper (s : String) : String := ⟨s.data.map Char.toUpper⟩

/-- Embedding of the datasource selection at source lines 50-62:
`LOCAL` (case-insensitively) selects the local feed, `TUSHARE` the Tushare
feed, and anything else falls through to the Quandl feed. -/
def select_data_feed (datasource : String) : DataFeedKind :=
  if str_upper datasource = "LOCAL" then .localFeed
  else if str_upper datasource = "TUSHARE" then .tushare
  else .quandl

/-- The configuration mapping consumed by `Backtest.__init__`
(keys read at source lines 31-41). Ticker and benchmark entries are modelled
as strings, on which the source's `str(...)` coercion is the identity. -/
structure Config where
  cash : Price
  tickers : List String
  benchmark : Option String
  start_date : Timestamp
  end_date : Timestamp
  strategy : String
  datasource : String
  hist_dir : String
  output_dir : String
deriving DecidableEq, Repr

/-- The observable result of `Backtest.__init__`: the engine's own fields
and the arguments it handed to its collaborators. -/
structure BacktestEngine where
  state : EngineState
  symbols : List String
  benchmark : Option String
  dataFeedKind : DataFeedKind
  subscribedSymbols : List String
  perfSymbols : List String
  strategyName : Option String
  handlersRegistered : Bool
  printed : List String
deriving DecidableEq, Repr

/-- How construction ends: either a Python exception propagates to the
caller, or the constructor returns and the caller holds the engine object. -/
inductive InitResult where
  | raised (msg : String)
  | constructed (eng : BacktestEngine)
deriving DecidableEq, Repr

/-- Whether construction raised to the caller. -/
def InitResult.failed : InitResult → Bool
  | .raised _ => true
  | .constructed _ => false

/-- Embedding of `Backtest.__init__` (source lines 23-100).  The strategy
registry `source.strategy.mystrategy.strategy_list` is not under src/ and is
modelled from the spec as the list of registered strategy names.  Mirrors the
source: `symbols_all` is a copy of the tickers with the benchmark appended
when one is configured (lines 44-48); the data feed is selected from the
datasource string (lines 50-62) and subscribed with `symbols_all` (line 64);
the performance manager receives `symbols_all` (line 79); an unknown strategy
name prints a message and returns early (lines 85-88), leaving no strategy
instantiated and no handlers registered (lines 97-100); no exception is
raised on that path. -/
def backtest_init (strategy_list : List String) (config : Config) : InitResult :=
  let current_time := ts1900
  let symbols := config.tickers
  let symbols_all := symbols ++ (match config.benchmark with
    | some b => [b]
    | none => [])
  let feed := select_data_feed config.datasource
  let state : EngineState :=
    { currentTime := current_time, marks := [], perfRows := [], board := [] }
  if config.strategy ∈ strategy_list then
    .constructed
      { state := state, symbols := symbols, benchmark := config.benchmark,
        dataFeedKind := feed, subscribedSymbols := symbols_all,
        perfSymbols := symbols_all, strategyName := some config.strategy,
        handlersRegistered := true, printed := [] }
  else
    .constructed
      { state := state, symbols := symbols, benchmark := config.benchmark,
        dataFeedKind := feed, subscribedSymbols := symbols_all,
        perfSymbols := symbols_all, strategyName := none,
        handlersRegistered := false,
        printed := ["can not find strategy: " ++ config.strategy] }

/-- The calls of a trace, in order. -/
def callsOf (tr : List Step) : List Call := tr.map Step.call

/-- Recognisers for the call kinds the ordering claims speak about. -/
def Call.isUpdatePerformance : Call → Bool
  | .updatePerformance _ => true
  | _ => false

def Call.isMarkToMarket : Call → Bool
  | .markToMarket _ _ _ => true
  | _ => false

def Call.isDataBoardUpdate : Call → Bool
  | .dataBoardOnTick _ => true
  | .dataBoardOnBar _ => true
  | _ => false

def Call.isStrategyCall : Call → Bool
  | .strategyOnTick _ => true
  | .strategyOnBar _ => true
  | _ => false

def Call.isRiskGateCheck : Call → Bool
  | .riskGateCheck _ => true
  | _ => false

def Call.isPlaceOrder : Call → Bool
  | .placeOrder _ => true
  | _ => false

def Call.isPortfolioOnFill : Call → Bool
  | .portfolioOnFill _ => true
  | _ => false

def Call.isPerformanceOnFill : Call → Bool
  | .performanceOnFill _ => true
  | _ => false

def Call.isUpdateFinalPerformance : Call → Bool
  | .updateFinalPerformance _ => true
  | _ => false

def Call.isSaveResults : Call → Bool
  | .saveResults => true
  | _ => false

/-- Index of the first step of a trace whose call satisfies `p`
(the trace's length when none does). -/
def firstIdx (p : Call → Bool) (tr : List Step) : Nat :=
  tr.findIdx (fun step => p step.call)

/-- Whether construction raised: projection view of the feed kind selected. -/
def InitResult.feedKind : InitResult → Option DataFeedKind
  | .raised _ => none
  | .constructed eng => some eng.dataFeedKind

/-- The symbol list subscribed to the data feed, when construction returned. -/
def InitResult.subscribed : InitResult → Option (List String)
  | .raised _ => none
  | .constructed eng => some eng.subscribedSymbols

/-- The symbol list handed to the performance manager, when construction returned. -/
def InitResult.perfSyms : InitResult → Option (List String)
  | .raised _ => none
  | .constructed eng => some eng.perfSymbols

/-- The engine's own `_symbols` field, when construction returned. -/
def InitResult.ownSymbols : InitResult → Option (List String)
  | .raised _ => none
  | .constructed eng => some eng.symbols

/-- The strategy instantiated by construction, if any. -/
def InitResult.strategyOf : InitResult → Option String
  | .raised _ => none
  | .constructed eng => eng.strategyName

/-- Whether construction reached handler registration (source lines 97-100). -/
def InitResult.handlersOn : InitResult → Bool
  | .raised _ => false
  | .constructed eng => eng.handlersRegistered

/-- What construction printed. -/
def InitResult.printedOf : InitResult → List String
  | .raised _ => []
  | .constructed eng => eng.printed

/-- The engine's `_current_time` right after construction. -/
def InitResult.initialTime : InitResult → Option Timestamp
  | .raised _ => none
  | .constructed eng => some eng.state.currentTime

/-- A concrete engine state used as an explicit input by witnesses. -/
def sEx : EngineState :=
  { currentTime := ts1900, marks := [], perfRows := [], board := [] }

/-- A concrete tick event used as an explicit input by witnesses. -/
def tickEx : TickEvent :=
  { full_symbol := "AAPL", timestamp := ⟨2017, 1, 3⟩, price := 150 }

/-- A concrete bar event used as an explicit input by witnesses. -/
def barEx : BarEvent :=
  { full_symbol := "SPX", bar_end_time := ⟨2017, 1, 4⟩, adj_close_price := 2270 }

/-- A concrete order event used as an explicit input by witnesses. -/
def orderEx : OrderEvent :=
  { full_symbol := "AAPL", timestamp := ⟨2017, 1, 3⟩, order_size := 100 }

/-- A concrete strategy registry used as an explicit input by witnesses. -/
def regEx : List String := ["buy_and_hold"]

/-- A concrete configuration used as an explicit input by witnesses: its
strategy name is not in `regEx`, its datasource is neither LOCAL nor TUSHARE,
and it configures a benchmark. -/
def cfgEx : Config :=
  { cash := 100000, tickers := ["AAPL", "MSFT"], benchmark := some "SPX",
    start_date := ⟨2016, 1, 1⟩, end_date := ⟨2017, 1, 1⟩,
    strategy := "no_such_strategy", datasource := "csv",
    hist_dir := "./hist/", output_dir := "./out/" }

/-- Helper: every call a dispatched handler makes is a handler-level call —
never the final-snapshot call and never the save-results call, which only
`run` itself performs. -/
theorem mem_dispatch_not_final (s : EngineState) (ev : Event) :
    ∀ st ∈ (dispatch s ev).2, Call.isUpdateFinalPerformance st.call = false
      ∧ Call.isSaveResults st.call = false := by
  intro st hst
  cases ev with
  | tick e =>
    simp [dispatch, tick_event_handler] at hst
    rcases hst with rfl | rfl | rfl | rfl <;> exact ⟨rfl, rfl⟩
  | bar e =>
    simp [dispatch, bar_event_handler] at hst
    rcases hst with rfl | rfl | rfl | rfl <;> exact ⟨rfl, rfl⟩
  | order o =>
    simp [dispatch, order_event_handler] at hst
    subst hst; exact ⟨rfl, rfl⟩
  | fill f =>
    simp [dispatch, fill_event_handler] at hst
    rcases hst with rfl | rfl <;> exact ⟨rfl, rfl⟩

/-- Helper: no step of the event-engine drain loop is the final snapshot or
the save-results call. -/
theorem mem_engine_run_not_final (events : List Event) : ∀ (s : EngineState),
    ∀ st ∈ (events_engine_run s events).2, Call.isUpdateFinalPerformance st.call = false
      ∧ Call.isSaveResults st.call = false := by
  induction events with
  | nil => intro s st hst; simp [events_engine_run] at hst
  | cons ev rest ih =>
    intro s st hst
    simp only [events_engine_run, List.mem_append] at hst
    rcases hst with h | h
    · exact mem_dispatch_not_final s ev st h
    · exact ih (dispatch s ev).1 st h

/-- Helper: `findIdx` over an append whose first part wholly fails the
predicate lands in the second part. -/
theorem findIdx_append_false {α : Type} (p : α → Bool) (l1 l2 : List α)
    (h : ∀ a ∈ l1, p a = false) :
    (l1 ++ l2).findIdx p = l1.length + l2.findIdx p := by
  induction l1 with
  | nil => simp
  | cons a l ih =>
    have ha : p a = false := h a (List.mem_cons_self a l)
    rw [List.cons_append, List.findIdx_cons, ha,
      ih (fun x hx => h x (List.mem_cons_of_mem a hx))]
    simp [Nat.succ_add]

/-- Helper: `find?` over an append whose first part wholly fails the
predicate searches the second part. -/
theorem find?_append_false {α : Type} (p : α → Bool) (l1 l2 : List α)
    (h : ∀ a ∈ l1, p a = false) :
    (l1 ++ l2).find? p = l2.find? p := by
  induction l1 with
  | nil => rfl
  | cons a l ih =>
    have ha : p a = false := h a (List.mem_cons_self a l)
    rw [List.cons_append, List.find?_cons_of_neg _ (by simp [ha])]
    exact ih (fun x hx => h x (List.mem_cons_of_mem a hx))

/-- Helper: after draining the loop, the engine's `_current_time` is the
timestamp of the last market event dispatched, provided the last event
dispatched is a market event (the feed yields only Tick/Bar events). -/
theorem engine_run_currentTime_last :
    ∀ (events : List Event) (s : EngineState) (ev : Event),
      events.getLast? = some ev → ev.isMarket = true →
      (events_engine_run s events).1.currentTime = ev.time := by
  intro events
  induction events with
  | nil => intro s ev h hm; simp at h
  | cons x rest ih =>
    intro s ev h hm
    cases rest with
    | nil =>
      simp [List.getLast?] at h
      subst h
      cases x with
      | tick e =>
        simp [events_engine_run, dispatch, tick_event_handler, update_performance,
          mark_to_market, data_board_on_tick, Event.time]
      | bar e =>
        simp [events_engine_run, dispatch, bar_event_handler, update_performance,
          mark_to_market, data_board_on_bar, Event.time]
      | order o => simp [Event.isMarket] at hm
      | fill f => simp [Event.isMarket] at hm
    | cons y rest2 =>
      rw [List.getLast?_cons_cons] at h
      exact ih (dispatch s x).1 ev h hm

/-- C1: in both the Tick and the Bar handler, `update_performance` is invoked
strictly before `mark_to_market` for the same event, so the snapshot row
appended for the event's timestamp carries the portfolio mark state as it was
before that event's mark (the event's own mark is applied only afterwards). -/
theorem c1_update_performance_before_mark (s : EngineState) (te : TickEvent) (be : BarEvent) :
    ((callsOf (tick_event_handler s te).2).any Call.isUpdatePerformance = true
      ∧ (callsOf (tick_event_handler s te).2).any Call.isMarkToMarket = true
      ∧ firstIdx Call.isUpdatePerformance (tick_event_handler s te).2
          < firstIdx Call.isMarkToMarket (tick_event_handler s te).2
      ∧ (tick_event_handler s te).1.perfRows = s.perfRows ++ [(te.timestamp, s.marks)]
      ∧ (tick_event_handler s te).1.marks = upsert te.full_symbol te.price s.marks)
    ∧ ((callsOf (bar_event_handler s be).2).any Call.isUpdatePerformance = true
      ∧ (callsOf (bar_event_handler s be).2).any Call.isMarkToMarket = true
      ∧ firstIdx Call.isUpdatePerformance (bar_event_handler s be).2
          < firstIdx Call.isMarkToMarket (bar_event_handler s be).2
      ∧ (bar_event_handler s be).1.perfRows = s.perfRows ++ [(be.bar_end_time, s.marks)]
      ∧ (bar_event_handler s be).1.marks
          = upsert be.full_symbol be.adj_close_price s.marks) := by
  simp [tick_event_handler, bar_event_handler, update_performance, mark_to_market,
    data_board_on_tick, data_board_on_bar, callsOf, firstIdx, List.findIdx_cons,
    Call.isUpdatePerformance, Call.isMarkToMarket]

/-- C2: in both market-event handlers the Data Board update happens after the
performance snapshot and the mark-to-market (both of which see the previous
board) and before the strategy callback, which sees the board already updated
with the current event's price. -/
theorem c2_board_updated_between (s : EngineState) (te : TickEvent) (be : BarEvent) :
    (firstIdx Call.isUpdatePerformance (tick_event_handler s te).2
        < firstIdx Call.isDataBoardUpdate (tick_event_handler s te).2
      ∧ firstIdx Call.isMarkToMarket (tick_event_handler s te).2
          < firstIdx Call.isDataBoardUpdate (tick_event_handler s te).2
      ∧ firstIdx Call.isDataBoardUpdate (tick_event_handler s te).2
          < firstIdx Call.isStrategyCall (tick_event_handler s te).2
      ∧ (callsOf (tick_event_handler s te).2).any Call.isDataBoardUpdate = true
      ∧ (callsOf (tick_event_handler s te).2).any Call.isStrategyCall = true
      ∧ (∃ st, (tick_event_handler s te).2.find? (fun x => Call.isUpdatePerformance x.call)
            = some st ∧ st.seen.board = s.board)
      ∧ (∃ st, (tick_event_handler s te).2.find? (fun x => Call.isMarkToMarket x.call)
            = some st ∧ st.seen.board = s.board)
      ∧ (∃ st, (tick_event_handler s te).2.find? (fun x => Call.isStrategyCall x.call)
            = some st ∧ st.seen.board = upsert te.full_symbol te.price s.board))
    ∧ (firstIdx Call.isUpdatePerformance (bar_event_handler s be).2
        < firstIdx Call.isDataBoardUpdate (bar_event_handler s be).2
      ∧ firstIdx Call.isMarkToMarket (bar_event_handler s be).2
          < firstIdx Call.isDataBoardUpdate (bar_event_handler s be).2
      ∧ firstIdx Call.isDataBoardUpdate (bar_event_handler s be).2
          < firstIdx Call.isStrategyCall (bar_event_handler s be).2
      ∧ (callsOf (bar_event_handler s be).2).any Call.isDataBoardUpdate = true
      ∧ (callsOf (bar_event_handler s be).2).any Call.isStrategyCall = true
      ∧ (∃ st, (bar_event_handler s be).2.find? (fun x => Call.isUpdatePerformance x.call)
            = some st ∧ st.seen.board = s.board)
      ∧ (∃ st, (bar_event_handler s be).2.find? (fun x => Call.isMarkToMarket x.call)
            = some st ∧ st.seen.board = s.board)
      ∧ (∃ st, (bar_event_handler s be).2.find? (fun x => Call.isStrategyCall x.call)
            = some st ∧ st.seen.board = upsert be.full_symbol be.adj_close_price s.board)) := by
  simp [tick_event_handler, bar_event_handler, update_performance, mark_to_market,
    data_board_on_tick, data_board_on_bar, callsOf, firstIdx, List.findIdx_cons,
    List.find?, Call.isUpdatePerformance, Call.isMarkToMarket, Call.isDataBoardUpdate,
    Call.isStrategyCall]

/-- C5: the mark-to-market applied for a market event uses exactly the price
that triggered the event — the tick's price at the tick's timestamp for a
Tick, the bar's adjusted close at the bar's end time for a Bar — both in the
call made and in the resulting mark table. -/
theorem c5_mark_uses_triggering_price (s : EngineState) (te : TickEvent) (be : BarEvent) :
    ((∃ st, (tick_event_handler s te).2.find? (fun x => Call.isMarkToMarket x.call)
          = some st ∧ st.call = .markToMarket te.timestamp te.full_symbol te.price)
      ∧ (tick_event_handler s te).1.marks = upsert te.full_symbol te.price s.marks)
    ∧ ((∃ st, (bar_event_handler s be).2.find? (fun x => Call.isMarkToMarket x.call)
          = some st ∧ st.call = .markToMarket be.bar_end_time be.full_symbol be.adj_close_price)
      ∧ (bar_event_handler s be).1.marks
          = upsert be.full_symbol be.adj_close_price s.marks) := by
  simp [tick_event_handler, bar_event_handler, update_performance, mark_to_market,
    data_board_on_tick, data_board_on_bar, List.find?, Call.isMarkToMarket]

/-- C7: the Fill handler calls the Portfolio Ledger's `on_fill` and the
Performance Accumulator's `on_fill` exactly once each, with the portfolio
update strictly before the performance trade-statistics update. -/
theorem c7_fill_handler_once_each (s : EngineState) (f : FillEvent) :
    (callsOf (fill_event_handler s f).2).count (.portfolioOnFill f) = 1
    ∧ (callsOf (fill_event_handler s f).2).count (.performanceOnFill f) = 1
    ∧ (callsOf (fill_event_handler s f).2).any Call.isPerformanceOnFill = true
    ∧ firstIdx Call.isPortfolioOnFill (fill_event_handler s f).2
        < firstIdx Call.isPerformanceOnFill (fill_event_handler s f).2 := by
  simp [fill_event_handler, callsOf, firstIdx, List.findIdx_cons, List.count_cons,
    Call.isPortfolioOnFill, Call.isPerformanceOnFill]

/-- C3 counterexample: at a concrete engine state and order event, the order
handler makes no Risk Gate check at all — in particular none before
`place_order`: the order is forwarded to the brokerage unchecked. -/
theorem c3_counterexample :
    ¬ ((callsOf (order_event_handler sEx orderEx).2).any Call.isRiskGateCheck = true
        ∧ firstIdx Call.isRiskGateCheck (order_event_handler sEx orderEx).2
            < firstIdx Call.isPlaceOrder (order_event_handler sEx orderEx).2) := by
  decide

/-- C3 amended: every Order event is forwarded directly to the Brokerage's
`place_order`, exactly once, with no Risk Gate check anywhere on the path
(the pass-through risk manager constructed at source line 82 is never
consulted and is not handed to the brokerage); since no order is ever
rejected, no rejected order can produce a Fill, vacuously. -/
theorem c3_order_forwarded_unchecked (s : EngineState) (o : OrderEvent) :
    (callsOf (order_event_handler s o).2).count (.placeOrder o) = 1
    ∧ (callsOf (order_event_handler s o).2).any Call.isRiskGateCheck = false
    ∧ (order_event_handler s o).1 = s := by
  simp [order_event_handler, callsOf, Call.isRiskGateCheck, List.count_cons]

/-- C4 counterexample: at a concrete configuration whose strategy name is not
in the registry, construction does not fail: no exception reaches the caller
(the constructor prints a message and returns early instead). -/
theorem c4_counterexample :
    cfgEx.strategy ∉ regEx ∧ (backtest_init regEx cfgEx).failed = false := by
  decide

/-- C4 amended: with an unknown strategy identifier, construction returns
early — before any strategy is instantiated and before any event handler is
registered, so no event can ever be processed — printing an error message,
but it raises nothing: the caller receives a partially constructed engine
object rather than a surfaced error. -/
theorem c4_unknown_strategy_partial_construction (reg : List String) (cfg : Config)
    (h : cfg.strategy ∉ reg) :
    (backtest_init reg cfg).failed = false
    ∧ (backtest_init reg cfg).strategyOf = none
    ∧ (backtest_init reg cfg).handlersOn = false
    ∧ (backtest_init reg cfg).printedOf ≠ [] := by
  simp [backtest_init, h, InitResult.failed, InitResult.strategyOf,
    InitResult.handlersOn, InitResult.printedOf]

/-- C4 witness: the amended statement at the concrete configuration. -/
theorem c4_witness :
    (backtest_init regEx cfgEx).failed = false
    ∧ (backtest_init regEx cfgEx).strategyOf = none
    ∧ (backtest_init regEx cfgEx).handlersOn = false
    ∧ (backtest_init regEx cfgEx).printedOf ≠ [] :=
  c4_unknown_strategy_partial_construction regEx cfgEx (by decide)

/-- C6: `run` first drains the event engine; only after the loop completes
does it perform exactly one final snapshot — at the engine's `_current_time`,
which is the timestamp of the last market event processed (the feed yields
only Tick/Bar events, so the last dispatched event is a market event), and
with the final mark state — and the snapshot strictly precedes
`save_results`; no final snapshot occurs while events remain in the loop. -/
theorem c6_single_final_snapshot (s : EngineState) (events : List Event) (ev : Event)
    (h1 : events.getLast? = some ev) (h2 : ev.isMarket = true) :
    (callsOf (run s events).2).countP Call.isUpdateFinalPerformance = 1
    ∧ (callsOf (events_engine_run s events).2).any Call.isUpdateFinalPerformance = false
    ∧ firstIdx Call.isUpdateFinalPerformance (run s events).2
        = (events_engine_run s events).2.length
    ∧ firstIdx Call.isUpdateFinalPerformance (run s events).2
        < firstIdx Call.isSaveResults (run s events).2
    ∧ (run s events).2.find? (fun x => Call.isUpdateFinalPerformance x.call)
        = some ⟨.updateFinalPerformance ev.time, (events_engine_run s events).1⟩
    ∧ (run s events).1.perfRows
        = (events_engine_run s events).1.perfRows
          ++ [(ev.time, (events_engine_run s events).1.marks)] := by
  have hmem := mem_engine_run_not_final events s
  have hct := engine_run_currentTime_last events s ev h1 h2
  refine ⟨?_, ?_, ?_, ?_, ?_, ?_⟩
  · have h0 : ((events_engine_run s events).2.map Step.call).countP
        Call.isUpdateFinalPerformance = 0 := by
      refine List.countP_eq_zero.mpr ?_
      intro c hc
      simp at hc
      obtain ⟨st, hst, rfl⟩ := hc
      simp [(hmem st hst).1]
    simp [run, callsOf, List.countP_append, h0, List.countP_cons,
      Call.isUpdateFinalPerformance]
  · refine List.any_eq_false.mpr ?_
    intro c hc
    simp [callsOf] at hc
    obtain ⟨st, hst, rfl⟩ := hc
    simp [(hmem st hst).1]
  · simp only [run, firstIdx]
    rw [findIdx_append_false _ _ _ (fun a ha => (hmem a ha).1)]
    simp [List.findIdx_cons, Call.isUpdateFinalPerformance]
  · simp only [run, firstIdx]
    rw [findIdx_append_false _ _ _ (fun a ha => (hmem a ha).1),
      findIdx_append_false _ _ _ (fun a ha => (hmem a ha).2)]
    simp [List.findIdx_cons, Call.isUpdateFinalPerformance, Call.isSaveResults]
  · simp only [run]
    rw [find?_append_false _ _ _ (fun a ha => (hmem a ha).1)]
    rw [List.find?_cons_of_pos _ (by simp [Call.isUpdateFinalPerformance]), hct]
  · simp only [run, update_final_performance]
    rw [hct]

/-- C6 witness: the single-final-snapshot count at a concrete one-tick run. -/
theorem c6_witness :
    (callsOf (run sEx [Event.tick tickEx]).2).countP Call.isUpdateFinalPerformance = 1 :=
  (c6_single_final_snapshot sEx [Event.tick tickEx] (Event.tick tickEx)
    (by decide) (by decide)).1

/-- C8: a datasource string that is, case-insensitively, neither LOCAL nor
TUSHARE makes construction silently select the Quandl data feed; no error is
raised for the unrecognized value. -/
theorem c8_unrecognized_datasource_defaults_to_quandl (reg : List String) (cfg : Config)
    (h1 : str_upper cfg.datasource ≠ "LOCAL") (h2 : str_upper cfg.datasource ≠ "TUSHARE") :
    (backtest_init reg cfg).failed = false
    ∧ (backtest_init reg cfg).feedKind = some .quandl := by
  have hq : select_data_feed cfg.datasource = .quandl := by
    simp [select_data_feed, h1, h2]
  by_cases hm : cfg.strategy ∈ reg <;>
    simp [backtest_init, hm, hq, InitResult.failed, InitResult.feedKind]

/-- C8 witness: the concrete configuration with datasource "csv". -/
theorem c8_witness :
    (backtest_init regEx cfgEx).failed = false
    ∧ (backtest_init regEx cfgEx).feedKind = some .quandl :=
  c8_unrecognized_datasource_defaults_to_quandl regEx cfgEx (by decide) (by decide)

/-- C9: when a benchmark is configured, the benchmark is appended to the
symbol list subscribed to the data feed and to the list handed to the
performance manager, while the engine's own `_symbols` keeps only the
configured tickers (the constructor copies the tickers before appending). -/
theorem c9_benchmark_appended (reg : List String) (cfg : Config) (b : String)
    (h : cfg.benchmark = some b) :
    (backtest_init reg cfg).subscribed = some (cfg.tickers ++ [b])
    ∧ (backtest_init reg cfg).perfSyms = some (cfg.tickers ++ [b])
    ∧ (backtest_init reg cfg).ownSymbols = some cfg.tickers := by
  by_cases hm : cfg.strategy ∈ reg <;>
    simp [backtest_init, hm, h, InitResult.subscribed, InitResult.perfSyms,
      InitResult.ownSymbols]

/-- C9 witness: the concrete configuration with benchmark "SPX". -/
theorem c9_witness :
    (backtest_init regEx cfgEx).subscribed = some (cfgEx.tickers ++ ["SPX"])
    ∧ (backtest_init regEx cfgEx).perfSyms = some (cfgEx.tickers ++ ["SPX"])
    ∧ (backtest_init regEx cfgEx).ownSymbols = some cfgEx.tickers :=
  c9_benchmark_appended regEx cfgEx "SPX" rfl

/-- C10: the engine's `_current_time` starts at the sentinel 1900-01-01; each
market-event handler sets it to the event's timestamp (the bar's end time for
a Bar) before any performance, portfolio, data-board or strategy call, so
every call of the handler sees the event's timestamp; consequently the final
snapshot after the run uses the timestamp of the last market event
processed. -/
theorem c10_current_time_protocol (reg : List String) (cfg : Config) (s : EngineState)
    (te : TickEvent) (be : BarEvent) (events : List Event) (ev : Event)
    (h1 : events.getLast? = some ev) (h2 : ev.isMarket = true) :
    (backtest_init reg cfg).initialTime = some ts1900
    ∧ ((tick_event_handler s te).2.all fun st => st.seen.currentTime == te.timestamp) = true
    ∧ (tick_event_handler s te).1.currentTime = te.timestamp
    ∧ ((bar_event_handler s be).2.all fun st => st.seen.currentTime == be.bar_end_time) = true
    ∧ (bar_event_handler s be).1.currentTime = be.bar_end_time
    ∧ (run s events).2.find? (fun x => Call.isUpdateFinalPerformance x.call)
        = some ⟨.updateFinalPerformance ev.time, (events_engine_run s events).1⟩ := by
  refine ⟨?_, ?_, ?_, ?_, ?_, ?_⟩
  · by_cases hm : cfg.strategy ∈ reg <;>
      simp [backtest_init, hm, InitResult.initialTime]
  · simp [tick_event_handler, update_performance, mark_to_market, data_board_on_tick]
  · rfl
  · simp [bar_event_handler, update_performance, mark_to_market, data_board_on_bar]
  · rfl
  · have hmem := mem_engine_run_not_final events s
    have hct := engine_run_currentTime_last events s ev h1 h2
    simp only [run]
    rw [find?_append_false _ _ _ (fun a ha => (hmem a ha).1),
      List.find?_cons_of_pos _ (by simp [Call.isUpdateFinalPerformance]), hct]

/-- C10 witness: the sentinel start time at the concrete configuration. -/
theorem c10_witness :
    (backtest_init regEx cfgEx).initialTime = some ts1900 :=
  (c10_current_time_protocol regEx cfgEx sEx tickEx barEx [Event.tick tickEx]
    (Event.tick tickEx) (by decide) (by decide)).1

end EliteQuant
